import Mathlib

/-!
Verification of the label ingestion pipeline (label_watchdog_00.py).

Shallow embedding conventions:
* Python strings are `List Char` (the source only manipulates ASCII file
  names; `str.lower` and `int()` are modelled on their ASCII behaviour).
* A `pathlib.Path` file name is modelled by its pathlib decomposition into
  `stem` and `suffix` (the source only ever reads `path.stem`,
  `path.suffix` and `path.name`, and rebuilds names with `with_name`;
  appending `__retry<count>` to the stem and re-attaching the original
  final suffix commutes with pathlib's stem/suffix decomposition because
  the rendered count contains no dot).
* Exceptions are `Except`: a raised exception is `Except.error`.
* Filesystem effects (moves between the watched root, `Processed` and
  `Retry`, and the `.lock` marker) are explicit state in `FileState`.
* `time.sleep` is dropped: only the number of size samples matters.
-/

namespace LabelWatchdog

/-- Decidable equality for `Except`, so concrete runs of the embedded
fallible operations can be checked by `decide`. -/
instance instDecEqExcept [DecidableEq ε] [DecidableEq α] : DecidableEq (Except ε α) :=
  fun x y =>
    match x, y with
    | Except.ok a, Except.ok b =>
      if h : a = b then Decidable.isTrue (by rw [h])
      else Decidable.isFalse (fun hc => h (by cases hc; rfl))
    | Except.error a, Except.error b =>
      if h : a = b then Decidable.isTrue (by rw [h])
      else Decidable.isFalse (fun hc => h (by cases hc; rfl))
    | Except.ok _, Except.error _ => Decidable.isFalse (fun hc => Except.noConfusion hc)
    | Except.error _, Except.ok _ => Decidable.isFalse (fun hc => Except.noConfusion hc)

/-- The separator literal `__retry` used by `get_retry_count` and
`increment_retry` (`path.stem.split` and the f-string in the source). -/
def RETRY_SEP : List Char := ['_', '_', 'r', 'e', 't', 'r', 'y']

/-- `startsWithSeq pat s` holds when `pat` is an initial segment of `s`. -/
def startsWithSeq : List Char → List Char → Bool
  | [], _ => true
  | _ :: _, [] => false
  | p :: ps, c :: cs => p == c && startsWithSeq ps cs

/-- Python `"__retry" in s` (substring containment). -/
def containsRetry : List Char → Bool
  | [] => false
  | c :: rest => startsWithSeq RETRY_SEP (c :: rest) || containsRetry rest

/-- Python `s.split("__retry")`: non-overlapping left-to-right splitting on
the literal separator, keeping empty segments, exactly as `str.split` with
a non-empty separator. -/
def splitRetry : List Char → List (List Char)
  | '_' :: '_' :: 'r' :: 'e' :: 't' :: 'r' :: 'y' :: rest => [] :: splitRetry rest
  | [] => [[]]
  | c :: rest =>
    match splitRetry rest with
    | t :: ts => (c :: t) :: ts
    | [] => [[c]]

/-- Python `xs[-1]` on the (always non-empty) result of `str.split`. -/
def lastD : List (List Char) → List Char → List Char
  | [], d => d
  | a :: l, _ => lastD l a

/-- ASCII whitespace stripped by Python `int()` around its argument. -/
def isSpaceCh (c : Char) : Bool :=
  c == ' ' || c == '\t' || c == '\n' || c == '\r' || c == '\x0b' || c == '\x0c'

/-- Strip leading and trailing whitespace, as `int()` does. -/
def stripWS (s : List Char) : List Char :=
  ((s.dropWhile isSpaceCh).reverse.dropWhile isSpaceCh).reverse

/-- Numeric value of an ASCII digit character. -/
def digitVal (c : Char) : Nat := c.toNat - 48

/-- One step of decimal accumulation. -/
def foldStep (a : Nat) (c : Char) : Nat := a * 10 + digitVal c

/-- Digit body of a Python integer literal: digits with single `_`
separators allowed only between digits (`int("1_0") = 10`, `int("1__0")`
and `int("1_")` raise). -/
def parseGrouped (a : Nat) : List Char → Option Nat
  | [] => some a
  | c :: rest =>
    if c = '_' then
      match rest with
      | [] => none
      | d :: rest2 => if d.isDigit then parseGrouped (foldStep a d) rest2 else none
    else if c.isDigit then parseGrouped (foldStep a c) rest
    else none

/-- Unsigned part of `int()`: non-empty, must start with a digit. -/
def natPart : List Char → Option Nat
  | [] => none
  | c :: rest => if c.isDigit then parseGrouped (digitVal c) rest else none

/-- Python `int(s)` on ASCII input: optional surrounding whitespace, an
optional sign, then a non-empty digit sequence; `none` models the
`ValueError` raised on any other input. -/
def pyIntParse (s : List Char) : Option Int :=
  match stripWS s with
  | [] => none
  | c :: rest =>
    if c = '+' then (natPart rest).map (fun n => (n : Int))
    else if c = '-' then (natPart rest).map (fun n => -(n : Int))
    else (natPart (c :: rest)).map (fun n => (n : Int))

/-- The decimal digit character for `n < 10` (the final arm is only
reached at `9` when applied to remainders modulo ten). -/
def digitChar (n : Nat) : Char :=
  match n with
  | 0 => '0' | 1 => '1' | 2 => '2' | 3 => '3' | 4 => '4'
  | 5 => '5' | 6 => '6' | 7 => '7' | 8 => '8' | _ => '9'

/-- Decimal rendering loop; the fuel argument (always at least `n`) keeps
the recursion structural so that terms evaluate by kernel reduction. -/
def natToDigitsAux : Nat → Nat → List Char → List Char
  | 0, _, acc => acc
  | fuel + 1, n, acc =>
    if n = 0 then acc else natToDigitsAux fuel (n / 10) (digitChar (n % 10) :: acc)

/-- Python `str(n)` for `n : Nat`: decimal, no leading zeros. -/
def natToDigits (n : Nat) : List Char :=
  if n = 0 then ['0'] else natToDigitsAux n n []

/-- Python `str(i)` for `i : int`, as interpolated by the f-string of
`increment_retry`. -/
def intToDigits (i : Int) : List Char :=
  if i < 0 then '-' :: natToDigits i.natAbs else natToDigits i.toNat

/-- A file name as pathlib decomposes it: `stem` and final `suffix`. -/
structure PyPath where
  stem : List Char
  suffix : List Char
deriving DecidableEq

/-- `get_retry_count` (source lines 52-59): if `"__retry"` occurs in the
stem, `int(stem.split("__retry")[-1])` with `ValueError` degrading to 0;
otherwise 0. -/
def get_retry_count (p : PyPath) : Int :=
  if containsRetry p.stem then
    match pyIntParse (lastD (splitRetry p.stem) []) with
    | some n => n
    | none => 0
  else 0

/-- `increment_retry` (source lines 62-65):
`count = get_retry_count(path) + 1`, `base = stem.split("__retry")[0]`,
then `path.with_name(f"<base>__retry<count><suffix>")`; the resulting
name decomposes back into the shown stem and the unchanged suffix. -/
def increment_retry (p : PyPath) : PyPath :=
  let count : Int := get_retry_count p + 1
  let base : List Char := (splitRetry p.stem).headD []
  PyPath.mk (base ++ RETRY_SEP ++ intToDigits count) p.suffix

/-- `MAX_RETRIES = 3` (source line 26; a Python `int`). -/
def MAX_RETRIES : Int := 3

/-- `SUPPORTED_EXTENSIONS = {".jpg", ".jpeg", ".png"}` (source line 24). -/
def SUPPORTED_EXTENSIONS : List (List Char) :=
  [(".jpg").toList, (".jpeg").toList, (".png").toList]

/-- ASCII case folding, modelling `str.lower` on the extension strings the
watcher compares (all are ASCII). -/
def asciiLower (c : Char) : Char :=
  if 'A' ≤ c ∧ c ≤ 'Z' then Char.ofNat (c.toNat + 32) else c

/-- `is_image_file` (source lines 36-37):
`path.suffix.lower() in SUPPORTED_EXTENSIONS`. -/
def is_image_file (p : PyPath) : Bool :=
  SUPPORTED_EXTENSIONS.contains (p.suffix.map asciiLower)

/-- `wait_until_file_stable` loop (source lines 42-49): `last` carries
`last_size` (initially the `-1` sentinel), `i` the sample index, and the
fuel argument the remaining iterations of `for _ in range(timeout)`.
`probe i` is the `i`-th `path.stat().st_size` call: `Except.ok size`, or
`Except.error` when the call raises (file removed mid-probe); the source
has no handler, so an error aborts the whole loop. -/
def waitAux (probe : Nat → Except Unit Nat) (last : Int) (i : Nat) :
    Nat → Except Unit Bool
  | 0 => Except.ok false
  | fuel + 1 =>
    match probe i with
    | Except.error e => Except.error e
    | Except.ok cur =>
      if (cur : Int) = last then Except.ok true
      else waitAux probe (cur : Int) (i + 1) fuel

/-- `wait_until_file_stable` (source lines 40-49). -/
def wait_until_file_stable (probe : Nat → Except Unit Nat) (timeout : Nat) :
    Except Unit Bool :=
  waitAux probe (-1) 0 timeout

/-- The single expected lock failure. -/
inductive LockErr where
  | alreadyLocked
deriving DecidableEq

/-- Entry of `file_lock` (source lines 71-76): `lock_file.touch(exist_ok=False)`
raises `FileExistsError` when the marker exists, re-raised as
`RuntimeError("File is already locked")`; on success the marker now exists. -/
def file_lock_acquire (markerExists : Bool) : Except LockErr Bool :=
  if markerExists then Except.error LockErr.alreadyLocked else Except.ok true

/-- A bare `unlink` raises `FileNotFoundError` on an absent file. -/
def unlink_file (markerExists : Bool) : Except Unit Bool :=
  if markerExists then Except.ok false else Except.error ()

/-- Exit of `file_lock` (source lines 80-82): the `finally` block deletes
the marker only after checking `lock_file.exists()`, so releasing an
already-absent marker is not an error. -/
def file_lock_release (markerExists : Bool) : Except Unit Bool :=
  if markerExists then unlink_file markerExists else Except.ok markerExists

/-- The marker state after the `finally` block runs; the error branch is
unreachable (`file_lock_release` never fails, see claim C6). -/
def run_release (markerExists : Bool) : Bool :=
  match file_lock_release markerExists with
  | Except.ok m => m
  | Except.error _ => markerExists

/-- The three folders a watched file can occupy: the watched root,
`PROCESSED_FOLDER` and `RETRY_FOLDER` (source lines 14-19). -/
inductive Folder where
  | watch
  | processed
  | retry
deriving DecidableEq

/-- The observable filesystem state of one watched item: where the file
currently lives, its current name, and whether its `.lock` sibling marker
exists. -/
structure FileState where
  folder : Folder
  path : PyPath
  lockMarker : Bool
deriving DecidableEq

/-- Outcome of one `process_file` run. -/
inductive ProcOutcome where
  | processed
  | retryScheduled
  | stuck
deriving DecidableEq

/-- `process_file` (source lines 120-148). `returncode` is the exit status
of the `subprocess.run` call on the extraction collaborator. Success moves
the file (same name) into the processed folder; failure with
`retry_count < MAX_RETRIES` renames via `increment_retry` and moves into
the retry folder; otherwise the `else` branch only logs, leaving the file
and its name untouched. -/
def process_file (st : FileState) (returncode : Int) : ProcOutcome × FileState :=
  if returncode = 0 then
    (ProcOutcome.processed, { st with folder := Folder.processed })
  else if get_retry_count st.path < MAX_RETRIES then
    (ProcOutcome.retryScheduled,
      { st with folder := Folder.retry, path := increment_retry st.path })
  else
    (ProcOutcome.stuck, st)

/-- How one `on_created` dispatch ended (all the `return`/handler paths of
source lines 90-118). -/
inductive Outcome where
  | ignoredDirectory
  | ignoredInternal
  | ignoredExtension
  | skippedUnstable
  | skippedLocked
  | unexpectedError
  | handled (r : ProcOutcome)
deriving DecidableEq

/-- Per-event environment: the size-probe trace and `timeout` seen by
`wait_until_file_stable`, the collaborator's exit status, and whether the
body of the `with file_lock` block raises an unexpected exception before
completing (e.g. `subprocess.run` or `shutil.move` failing). -/
structure Ctx where
  probe : Nat → Except Unit Nat
  timeout : Nat
  returncode : Int
  procRaises : Bool

/-- `LabelHandler.on_created` (source lines 90-118) for an event on the
file described by `st`. `Except.error` is an exception escaping the
handler: the stability wait runs before the `try` block, so its errors
propagate, while `RuntimeError` from `file_lock` maps to
`Outcome.skippedLocked` and any exception inside the protected block maps
to `Outcome.unexpectedError`, the lock marker being removed by the
`finally` clause either way. -/
def on_created (ctx : Ctx) (isDirectory : Bool) (st : FileState) :
    Except Unit (Outcome × FileState) :=
  if isDirectory then Except.ok (Outcome.ignoredDirectory, st)
  else if st.folder ≠ Folder.watch then Except.ok (Outcome.ignoredInternal, st)
  else if is_image_file st.path = false then Except.ok (Outcome.ignoredExtension, st)
  else
    match wait_until_file_stable ctx.probe ctx.timeout with
    | Except.error e => Except.error e
    | Except.ok false => Except.ok (Outcome.skippedUnstable, st)
    | Except.ok true =>
      match file_lock_acquire st.lockMarker with
      | Except.error _ => Except.ok (Outcome.skippedLocked, st)
      | Except.ok marker =>
        if ctx.procRaises then
          Except.ok (Outcome.unexpectedError, { st with lockMarker := run_release marker })
        else
          let r := process_file { st with lockMarker := marker } ctx.returncode
          Except.ok (Outcome.handled r.1, { r.2 with lockMarker := run_release marker })

/-- Concrete fixture: a fresh label name `x.jpg`. -/
def pathX : PyPath := ⟨("x").toList, (".jpg").toList⟩

/-- Concrete fixture: `x__retry1.jpg`. -/
def pathX1 : PyPath := ⟨("x__retry1").toList, (".jpg").toList⟩

/-- Concrete fixture: `x__retry2.jpg`. -/
def pathX2 : PyPath := ⟨("x__retry2").toList, (".jpg").toList⟩

/-- Concrete fixture: `x__retry3.jpg`. -/
def pathX3 : PyPath := ⟨("x__retry3").toList, (".jpg").toList⟩

/-- Concrete fixture: a probe reporting a constant file size. -/
def stableProbe : Nat → Except Unit Nat := fun _ => Except.ok 5

/-- Concrete fixture: a probe reporting a strictly growing file size. -/
def growProbe : Nat → Except Unit Nat := fun i => Except.ok i

/-- Concrete fixture: a probe whose every sample raises (file gone). -/
def errProbe : Nat → Except Unit Nat := fun _ => Except.error ()

/-- Concrete fixture: stable file, extraction fails (exit status 1). -/
def failCtx : Ctx := ⟨stableProbe, 10, 1, false⟩

/-- Concrete fixture: stable file, extraction succeeds (exit status 0). -/
def okCtx : Ctx := ⟨stableProbe, 10, 0, false⟩

/-- Concrete fixture: growing file, extraction would fail. -/
def growCtx : Ctx := ⟨growProbe, 10, 1, false⟩

/-- Concrete fixture: every probe raises, extraction would fail. -/
def errCtx : Ctx := ⟨errProbe, 10, 1, false⟩

/-! ### Lemmas about the retry-name splitting primitives -/

theorem startsWithSeq_iff (pat : List Char) : ∀ s : List Char,
    startsWithSeq pat s = true ↔ ∃ t, s = pat ++ t := by
  induction pat with
  | nil => intro s; simp [startsWithSeq]
  | cons p ps ih =>
    intro s
    cases s with
    | nil =>
      simp only [startsWithSeq, List.cons_append]
      constructor
      · intro h; exact absurd h (by simp)
      · rintro ⟨t, h⟩; exact absurd h (by simp)
    | cons c cs =>
      simp only [startsWithSeq, Bool.and_eq_true, beq_iff_eq, ih, List.cons_append]
      constructor
      · rintro ⟨rfl, t, rfl⟩; exact ⟨t, rfl⟩
      · rintro ⟨t, h⟩
        injection h with h1 h2
        exact ⟨h1.symm, t, h2⟩

theorem splitRetry_sep (rest : List Char) :
    splitRetry ('_' :: '_' :: 'r' :: 'e' :: 't' :: 'r' :: 'y' :: rest) =
      [] :: splitRetry rest := rfl

theorem splitRetry_nil : splitRetry [] = [[]] := rfl

theorem containsRetry_cons (c : Char) (rest : List Char) :
    containsRetry (c :: rest) =
      (startsWithSeq RETRY_SEP (c :: rest) || containsRetry rest) := rfl

theorem splitRetry_cons (c : Char) (rest : List Char)
    (h : startsWithSeq RETRY_SEP (c :: rest) = false) :
    splitRetry (c :: rest) =
      match splitRetry rest with
      | t :: ts => (c :: t) :: ts
      | [] => [[c]] := by
  rw [splitRetry.eq_def]
  split
  · rename_i rest2 heq
    injection heq with h1 heq
    subst h1; subst heq
    simp [RETRY_SEP, startsWithSeq] at h
  · rename_i heq
    exact absurd heq (by simp)
  · rename_i c2 rest2 heq
    injection heq with h1 h2
    subst h1; subst h2
    rfl

theorem startsWithSeq_sep_append (b : List Char) :
    startsWithSeq RETRY_SEP (RETRY_SEP ++ b) = true := by
  simp [RETRY_SEP, startsWithSeq]

theorem containsRetry_sep_append (l : List Char) :
    containsRetry (RETRY_SEP ++ l) = true := by
  have h : RETRY_SEP ++ l = '_' :: ('_' :: 'r' :: 'e' :: 't' :: 'r' :: 'y' :: l) := rfl
  rw [h, containsRetry_cons]
  have h2 : startsWithSeq RETRY_SEP ('_' :: '_' :: 'r' :: 'e' :: 't' :: 'r' :: 'y' :: l)
      = true := startsWithSeq_sep_append l
  rw [h2, Bool.true_or]

theorem sep_boundary (a b : List Char) (hc : containsRetry a = false)
    (h : startsWithSeq RETRY_SEP (a ++ (RETRY_SEP ++ b)) = true) : a = [] := by
  obtain ⟨t, ht⟩ := (startsWithSeq_iff RETRY_SEP _).mp h
  rcases List.append_eq_append_iff.mp ht with ⟨l, h1, h2⟩ | ⟨l, h1, h2⟩
  · by_contra hne
    have ha1 : 1 ≤ a.length := by
      cases a with
      | nil => exact absurd rfl hne
      | cons x xs => simp
    have hlen : a.length + l.length = 7 := by
      have h3 := congrArg List.length h1
      simp [RETRY_SEP] at h3
      omega
    have hld : RETRY_SEP.drop a.length = l := by
      rw [h1]; exact List.drop_left a l
    have hlt : RETRY_SEP.take l.length = l := by
      have h3 : (RETRY_SEP ++ b).take l.length = (l ++ t).take l.length := by rw [h2]
      rw [List.take_left l t] at h3
      rw [List.take_append_of_le_length (by simp [RETRY_SEP]; omega)] at h3
      exact h3
    rcases Nat.lt_or_ge a.length 7 with hlt7 | hge7
    · have hkey : RETRY_SEP.drop a.length = RETRY_SEP.take (7 - a.length) := by
        rw [hld, ← hlt]
        congr 1
        omega
      set k := a.length with hk
      interval_cases k <;> exact absurd hkey (by decide)
    · have hk7 : a.length = 7 := by omega
      have hl0 : l = [] := by
        have : l.length = 0 := by omega
        exact List.eq_nil_of_length_eq_zero this
      subst hl0
      rw [List.append_nil] at h1
      rw [← h1] at hc
      exact absurd hc (by decide)
  · rw [h1, containsRetry_sep_append] at hc
    exact absurd hc (by simp)

theorem splitRetry_fresh (s : List Char) (hc : containsRetry s = false) :
    splitRetry s = [s] := by
  induction s with
  | nil => rfl
  | cons c rest ih =>
    rw [containsRetry_cons] at hc
    have h2 := Bool.or_eq_false_iff.mp hc
    rw [splitRetry_cons c rest h2.1, ih h2.2]

theorem splitRetry_append (a b : List Char) (hc : containsRetry a = false) :
    splitRetry (a ++ (RETRY_SEP ++ b)) = a :: splitRetry b := by
  induction a with
  | nil =>
    have h : RETRY_SEP ++ b = '_' :: '_' :: 'r' :: 'e' :: 't' :: 'r' :: 'y' :: b := rfl
    show splitRetry (RETRY_SEP ++ b) = [] :: splitRetry b
    rw [h, splitRetry_sep]
  | cons c a2 ih =>
    have hcc := hc
    rw [containsRetry_cons] at hcc
    have h2 := Bool.or_eq_false_iff.mp hcc
    have hsw : startsWithSeq RETRY_SEP (c :: (a2 ++ (RETRY_SEP ++ b))) = false := by
      cases hx : startsWithSeq RETRY_SEP ((c :: a2) ++ (RETRY_SEP ++ b)) with
      | false => exact hx
      | true => exact absurd (sep_boundary (c :: a2) b hc hx) (by simp)
    have hce : (c :: a2) ++ (RETRY_SEP ++ b) = c :: (a2 ++ (RETRY_SEP ++ b)) := rfl
    rw [hce, splitRetry_cons _ _ hsw, ih h2.2]

theorem containsRetry_append (a b : List Char) :
    containsRetry (a ++ (RETRY_SEP ++ b)) = true := by
  induction a with
  | nil => exact containsRetry_sep_append b
  | cons c a2 ih =>
    have hce : (c :: a2) ++ (RETRY_SEP ++ b) = c :: (a2 ++ (RETRY_SEP ++ b)) := rfl
    rw [hce, containsRetry_cons, ih, Bool.or_true]

theorem lastD_pair (x y d : List Char) : lastD [x, y] d = y := rfl

/-! ### Lemmas about decimal rendering and Python `int()` parsing -/

theorem digitChar_isDigit (m : Nat) : (digitChar m).isDigit = true := by
  unfold digitChar
  split <;> decide

theorem digitVal_digitChar (r : Nat) (h : r < 10) : digitVal (digitChar r) = r := by
  interval_cases r <;> decide

theorem natToDigitsAux_zero (fuel : Nat) (acc : List Char) :
    natToDigitsAux fuel 0 acc = acc := by
  cases fuel <;> simp [natToDigitsAux]

theorem natToDigitsAux_acc (fuel : Nat) : ∀ n acc,
    natToDigitsAux fuel n acc = natToDigitsAux fuel n [] ++ acc := by
  induction fuel with
  | zero => intro n acc; simp [natToDigitsAux]
  | succ fuel ih =>
    intro n acc
    by_cases hn : n = 0
    · subst hn; simp [natToDigitsAux]
    · rw [show natToDigitsAux (fuel + 1) n acc
          = natToDigitsAux fuel (n / 10) (digitChar (n % 10) :: acc) from by
            simp [natToDigitsAux, hn],
        show natToDigitsAux (fuel + 1) n []
          = natToDigitsAux fuel (n / 10) [digitChar (n % 10)] from by
            simp [natToDigitsAux, hn],
        ih (n / 10) (digitChar (n % 10) :: acc),
        ih (n / 10) [digitChar (n % 10)]]
      simp

theorem natToDigitsAux_digits (fuel : Nat) : ∀ n acc,
    (∀ c ∈ acc, c.isDigit = true) →
    ∀ c ∈ natToDigitsAux fuel n acc, c.isDigit = true := by
  induction fuel with
  | zero => intro n acc hacc; simpa [natToDigitsAux] using hacc
  | succ fuel ih =>
    intro n acc hacc c hc
    by_cases hn : n = 0
    · subst hn; simp [natToDigitsAux] at hc; exact hacc c hc
    · rw [show natToDigitsAux (fuel + 1) n acc
          = natToDigitsAux fuel (n / 10) (digitChar (n % 10) :: acc) from by
            simp [natToDigitsAux, hn]] at hc
      refine ih (n / 10) (digitChar (n % 10) :: acc) ?_ c hc
      intro d hd
      rcases List.mem_cons.mp hd with rfl | hd2
      · exact digitChar_isDigit _
      · exact hacc d hd2

theorem natToDigitsAux_ne_nil (fuel : Nat) : ∀ n, n ≠ 0 → n ≤ fuel →
    natToDigitsAux fuel n [] ≠ [] := by
  cases fuel with
  | zero => intro n h1 h2; omega
  | succ fuel =>
    intro n h1 h2
    rw [show natToDigitsAux (fuel + 1) n []
        = natToDigitsAux fuel (n / 10) [digitChar (n % 10)] from by
          simp [natToDigitsAux, h1],
      natToDigitsAux_acc]
    simp

theorem natToDigitsAux_foldl (fuel : Nat) : ∀ n, n ≠ 0 → n ≤ fuel → ∀ a,
    List.foldl foldStep a (natToDigitsAux fuel n []) =
      a * 10 ^ (natToDigitsAux fuel n []).length + n := by
  induction fuel with
  | zero => intro n h1 h2; omega
  | succ fuel ih =>
    intro n h1 h2 a
    rw [show natToDigitsAux (fuel + 1) n []
        = natToDigitsAux fuel (n / 10) [digitChar (n % 10)] from by
          simp [natToDigitsAux, h1],
      natToDigitsAux_acc]
    by_cases hq : n / 10 = 0
    · rw [hq, natToDigitsAux_zero]
      have hn10 : n < 10 := by omega
      have hmod : n % 10 = n := Nat.mod_eq_of_lt hn10
      simp [foldStep, hmod, digitVal_digitChar n hn10]
    · have hd : n / 10 ≤ fuel := by
        have := Nat.div_lt_self (by omega : 0 < n) (by omega : 1 < 10)
        omega
      rw [List.foldl_append]
      simp only [List.foldl_cons, List.foldl_nil]
      rw [ih (n / 10) hq hd a]
      have hfold : foldStep (a * 10 ^ (natToDigitsAux fuel (n / 10) []).length + n / 10)
          (digitChar (n % 10))
          = (a * 10 ^ (natToDigitsAux fuel (n / 10) []).length + n / 10) * 10 + n % 10 := by
        simp [foldStep, digitVal_digitChar (n % 10) (Nat.mod_lt n (by omega))]
      rw [hfold]
      have hlen : (natToDigitsAux fuel (n / 10) [] ++ [digitChar (n % 10)]).length
          = (natToDigitsAux fuel (n / 10) []).length + 1 := by simp
      rw [hlen, pow_succ]
      have := Nat.div_add_mod n 10
      ring_nf
      omega

theorem natToDigits_digits (n : Nat) : ∀ c ∈ natToDigits n, c.isDigit = true := by
  unfold natToDigits
  by_cases hn : n = 0
  · subst hn; intro c hc; simp at hc; subst hc; decide
  · simp only [hn, if_false]
    exact natToDigitsAux_digits n n [] (by intro c hc; simp at hc)

theorem natToDigits_ne_nil (n : Nat) : natToDigits n ≠ [] := by
  unfold natToDigits
  by_cases hn : n = 0
  · subst hn; simp
  · simp only [hn, if_false]
    exact natToDigitsAux_ne_nil n n hn (Nat.le_refl n)

theorem natToDigits_foldl (n : Nat) :
    List.foldl foldStep 0 (natToDigits n) = n := by
  unfold natToDigits
  by_cases hn : n = 0
  · subst hn; decide
  · simp only [hn, if_false]
    rw [natToDigitsAux_foldl n n hn (Nat.le_refl n) 0]
    simp

theorem digit_not_space (c : Char) (hd : c.isDigit = true) : isSpaceCh c = false := by
  by_contra hs
  rw [Bool.not_eq_false] at hs
  simp only [isSpaceCh, Bool.or_eq_true, beq_iff_eq] at hs
  rcases hs with ((((rfl | rfl) | rfl) | rfl) | rfl) | rfl <;> exact absurd hd (by decide)

theorem digit_ne_underscore (c : Char) (hd : c.isDigit = true) : c ≠ '_' := by
  intro h; subst h; exact absurd hd (by decide)

theorem dropWhile_space_digits (s : List Char) (hs : ∀ c ∈ s, c.isDigit = true) :
    s.dropWhile isSpaceCh = s := by
  cases s with
  | nil => rfl
  | cons c rest =>
    rw [List.dropWhile_cons,
      digit_not_space c (hs c (List.mem_cons_self c rest))]
    simp

theorem stripWS_digits (s : List Char) (hs : ∀ c ∈ s, c.isDigit = true) :
    stripWS s = s := by
  unfold stripWS
  rw [dropWhile_space_digits s hs,
    dropWhile_space_digits s.reverse (by intro c hc; exact hs c (List.mem_reverse.mp hc)),
    List.reverse_reverse]

theorem parseGrouped_cons (a : Nat) (c : Char) (rest : List Char) :
    parseGrouped a (c :: rest) =
      if c = '_' then
        match rest with
        | [] => none
        | d :: rest2 => if d.isDigit then parseGrouped (foldStep a d) rest2 else none
      else if c.isDigit then parseGrouped (foldStep a c) rest
      else none := by
  cases rest <;> rfl

theorem natPart_cons (c : Char) (rest : List Char) :
    natPart (c :: rest) =
      if c.isDigit then parseGrouped (digitVal c) rest else none := rfl

theorem parseGrouped_digits : ∀ (ds : List Char), (∀ c ∈ ds, c.isDigit = true) → ∀ a,
    parseGrouped a ds = some (List.foldl foldStep a ds) := by
  intro ds
  induction ds with
  | nil => intro _ a; simp [parseGrouped]
  | cons c rest ih =>
    intro hd a
    have hc : c.isDigit = true := hd c (List.mem_cons_self c rest)
    rw [parseGrouped_cons, if_neg (digit_ne_underscore c hc), if_pos hc,
      ih (by intro d hdm; exact hd d (List.mem_cons_of_mem c hdm)) (foldStep a c)]
    simp

theorem natPart_digits (ds : List Char) (hne : ds ≠ [])
    (hd : ∀ c ∈ ds, c.isDigit = true) :
    natPart ds = some (List.foldl foldStep 0 ds) := by
  cases ds with
  | nil => exact absurd rfl hne
  | cons c rest =>
    have hc : c.isDigit = true := hd c (List.mem_cons_self c rest)
    rw [natPart_cons, if_pos hc,
      parseGrouped_digits rest (by intro d hdm; exact hd d (List.mem_cons_of_mem c hdm))
        (digitVal c)]
    simp [foldStep]

theorem pyIntParse_natToDigits (n : Nat) :
    pyIntParse (natToDigits n) = some (n : Int) := by
  have hd := natToDigits_digits n
  have hne := natToDigits_ne_nil n
  unfold pyIntParse
  rw [stripWS_digits _ hd]
  cases hds : natToDigits n with
  | nil => exact absurd hds hne
  | cons c rest =>
    have hc : c.isDigit = true := by
      rw [hds] at hd; exact hd c (List.mem_cons_self c rest)
    have hplus : ¬ c = '+' := by intro h; subst h; exact absurd hc (by decide)
    have hminus : ¬ c = '-' := by intro h; subst h; exact absurd hc (by decide)
    simp only [hplus, if_false, hminus]
    rw [← hds, natPart_digits _ hne hd, natToDigits_foldl n]
    simp

theorem digits_not_containsRetry (s : List Char) (hd : ∀ c ∈ s, c.isDigit = true) :
    containsRetry s = false := by
  induction s with
  | nil => rfl
  | cons c rest ih =>
    rw [containsRetry_cons]
    have hc : c.isDigit = true := hd c (List.mem_cons_self c rest)
    have hsw : startsWithSeq RETRY_SEP (c :: rest) = false := by
      have hne : ('_' == c) = false := by
        rw [beq_eq_false_iff_ne]
        intro h
        exact digit_ne_underscore c hc h.symm
      rw [show startsWithSeq RETRY_SEP (c :: rest)
          = ('_' == c && startsWithSeq ['_', 'r', 'e', 't', 'r', 'y'] rest) from rfl,
        hne, Bool.false_and]
    rw [hsw, ih (by intro d hdm; exact hd d (List.mem_cons_of_mem c hdm)), Bool.or_false]

/-! ### The Retry Ledger on fresh names and on the retry chain -/

theorem intToDigits_natCast (m : Nat) : intToDigits (m : Int) = natToDigits m := by
  unfold intToDigits
  rw [if_neg (by omega : ¬ (m : Int) < 0)]
  simp

theorem get_retry_fresh (p : PyPath) (hp : containsRetry p.stem = false) :
    get_retry_count p = 0 := by
  unfold get_retry_count
  rw [hp]
  simp

theorem chain_stem_assoc (base b : List Char) :
    base ++ RETRY_SEP ++ b = base ++ (RETRY_SEP ++ b) := List.append_assoc base RETRY_SEP b

theorem splitRetry_chain (base : List Char) (n : Nat)
    (hb : containsRetry base = false) :
    splitRetry (base ++ RETRY_SEP ++ natToDigits n) = [base, natToDigits n] := by
  rw [chain_stem_assoc, splitRetry_append base (natToDigits n) hb,
    splitRetry_fresh (natToDigits n) (digits_not_containsRetry _ (natToDigits_digits n))]

theorem get_retry_chain (base sfx : List Char) (n : Nat)
    (hb : containsRetry base = false) :
    get_retry_count ⟨base ++ RETRY_SEP ++ natToDigits n, sfx⟩ = (n : Int) := by
  unfold get_retry_count
  simp only
  rw [chain_stem_assoc, containsRetry_append base (natToDigits n), if_pos rfl,
    ← chain_stem_assoc, splitRetry_chain base n hb, lastD_pair, pyIntParse_natToDigits]

theorem increment_retry_fresh (p : PyPath) (hp : containsRetry p.stem = false) :
    increment_retry p = PyPath.mk (p.stem ++ RETRY_SEP ++ natToDigits 1) p.suffix := by
  unfold increment_retry
  rw [get_retry_fresh p hp, splitRetry_fresh p.stem hp]
  simp only [List.headD_cons, zero_add]
  rw [show (1 : Int) = ((1 : Nat) : Int) from rfl, intToDigits_natCast]

theorem increment_retry_chain (base sfx : List Char) (n : Nat)
    (hb : containsRetry base = false) :
    increment_retry ⟨base ++ RETRY_SEP ++ natToDigits n, sfx⟩ =
      PyPath.mk (base ++ RETRY_SEP ++ natToDigits (n + 1)) sfx := by
  unfold increment_retry
  rw [get_retry_chain base sfx n hb, splitRetry_chain base n hb]
  simp only [List.headD_cons]
  rw [show (n : Int) + 1 = ((n + 1 : Nat) : Int) from by push_cast; ring,
    intToDigits_natCast]

theorem increment_retry_iterate (p : PyPath) (hp : containsRetry p.stem = false) :
    ∀ N : Nat, increment_retry^[N + 1] p =
      PyPath.mk (p.stem ++ RETRY_SEP ++ natToDigits (N + 1)) p.suffix := by
  intro N
  induction N with
  | zero =>
    rw [Function.iterate_one]
    exact increment_retry_fresh p hp
  | succ N ih =>
    rw [Function.iterate_succ_apply', ih]
    exact increment_retry_chain p.stem p.suffix (N + 1) hp

theorem get_retry_iterate (p : PyPath) (hp : containsRetry p.stem = false) (N : Nat) :
    get_retry_count (increment_retry^[N] p) = (N : Int) := by
  cases N with
  | zero => simpa using get_retry_fresh p hp
  | succ N =>
    rw [increment_retry_iterate p hp N]
    exact get_retry_chain p.stem p.suffix (N + 1) hp

/-! ### Lemmas about the stability prober -/

theorem waitAux_ok_step (probe : Nat → Except Unit Nat) (last : Int) (i fuel : Nat)
    (cur : Nat) (h : probe i = Except.ok cur) :
    waitAux probe last i (fuel + 1) =
      if (cur : Int) = last then Except.ok true
      else waitAux probe (cur : Int) (i + 1) fuel := by
  conv_lhs => rw [waitAux.eq_def]
  simp only [h]

theorem waitAux_err_step (probe : Nat → Except Unit Nat) (last : Int) (i fuel : Nat)
    (h : probe i = Except.error ()) :
    waitAux probe last i (fuel + 1) = Except.error () := by
  conv_lhs => rw [waitAux.eq_def]
  simp only [h]

theorem waitAux_stable_second (probe : Nat → Except Unit Nat) (s : Nat) (t : Nat)
    (h0 : probe 0 = Except.ok s) (h1 : probe 1 = Except.ok s) (ht : 2 ≤ t) :
    wait_until_file_stable probe t = Except.ok true := by
  obtain ⟨t2, rfl⟩ : ∃ t2, t = t2 + 2 := ⟨t - 2, by omega⟩
  unfold wait_until_file_stable
  rw [show t2 + 2 = (t2 + 1) + 1 from rfl]
  rw [waitAux_ok_step probe (-1) 0 (t2 + 1) s h0, if_neg (by omega : ¬ (s : Int) = -1),
    waitAux_ok_step probe (s : Int) 1 t2 s h1, if_pos rfl]

theorem waitAux_distinct (probe : Nat → Except Unit Nat) (s : Nat → Nat) :
    ∀ (fuel i : Nat) (last : Int),
    (∀ j, i ≤ j → j < i + fuel → probe j = Except.ok (s j)) →
    (∀ j, i ≤ j → j + 1 < i + fuel → s (j + 1) ≠ s j) →
    (fuel ≠ 0 → ((s i : Int) ≠ last)) →
    waitAux probe last i fuel = Except.ok false := by
  intro fuel
  induction fuel with
  | zero => intro i last _ _ _; rfl
  | succ fuel ih =>
    intro i last hok hne hlast
    rw [waitAux_ok_step probe last i fuel (s i) (hok i (Nat.le_refl i) (by omega)),
      if_neg (hlast (by omega))]
    refine ih (i + 1) (s i : Int) ?_ ?_ ?_
    · intro j hj1 hj2; exact hok j (by omega) (by omega)
    · intro j hj1 hj2; exact hne j (by omega) (by omega)
    · intro hf
      have := hne i (Nat.le_refl i) (by omega)
      intro hcast
      exact this (by exact_mod_cast hcast)

theorem waitAux_first_error (probe : Nat → Except Unit Nat) (s : Nat → Nat) :
    ∀ (k fuel i : Nat) (last : Int),
    k < fuel →
    (∀ j, i ≤ j → j < i + k → probe j = Except.ok (s j)) →
    (∀ j, i ≤ j → j + 1 < i + k → s (j + 1) ≠ s j) →
    (k ≠ 0 → ((s i : Int) ≠ last)) →
    probe (i + k) = Except.error () →
    waitAux probe last i fuel = Except.error () := by
  intro k
  induction k with
  | zero =>
    intro fuel i last hk _ _ _ herr
    obtain ⟨f, rfl⟩ : ∃ f, fuel = f + 1 := ⟨fuel - 1, by omega⟩
    rw [show i + 0 = i from rfl] at herr
    exact waitAux_err_step probe last i f herr
  | succ k ih =>
    intro fuel i last hk hok hne hlast herr
    obtain ⟨f, rfl⟩ : ∃ f, fuel = f + 1 := ⟨fuel - 1, by omega⟩
    rw [waitAux_ok_step probe last i f (s i) (hok i (Nat.le_refl i) (by omega)),
      if_neg (hlast (by omega))]
    refine ih f (i + 1) (s i : Int) (by omega) ?_ ?_ ?_ ?_
    · intro j hj1 hj2; exact hok j (by omega) (by omega)
    · intro j hj1 hj2; exact hne j (by omega) (by omega)
    · intro hf
      have := hne i (Nat.le_refl i) (by omega)
      intro hcast
      exact this (by exact_mod_cast hcast)
    · rw [show i + 1 + k = i + (k + 1) from by omega]
      exact herr

/-! ### Path lemmas for the event handler -/

theorem run_release_true : run_release true = false := rfl

theorem process_file_success (st : FileState) :
    process_file st 0 = (ProcOutcome.processed, { st with folder := Folder.processed }) := by
  unfold process_file
  rw [if_pos rfl]

theorem process_file_retry (st : FileState) (rc : Int) (hrc : rc ≠ 0)
    (hlt : get_retry_count st.path < MAX_RETRIES) :
    process_file st rc = (ProcOutcome.retryScheduled,
      { st with folder := Folder.retry, path := increment_retry st.path }) := by
  unfold process_file
  rw [if_neg hrc, if_pos hlt]

theorem process_file_stuck (st : FileState) (rc : Int) (hrc : rc ≠ 0)
    (hge : ¬ get_retry_count st.path < MAX_RETRIES) :
    process_file st rc = (ProcOutcome.stuck, st) := by
  unfold process_file
  rw [if_neg hrc, if_neg hge]

theorem on_created_unstable (ctx : Ctx) (st : FileState)
    (hf : st.folder = Folder.watch) (hi : is_image_file st.path = true)
    (hw : wait_until_file_stable ctx.probe ctx.timeout = Except.ok false) :
    on_created ctx false st = Except.ok (Outcome.skippedUnstable, st) := by
  simp [on_created, hf, hi, hw]

theorem on_created_error (ctx : Ctx) (st : FileState)
    (hf : st.folder = Folder.watch) (hi : is_image_file st.path = true)
    (hw : wait_until_file_stable ctx.probe ctx.timeout = Except.error ()) :
    on_created ctx false st = Except.error () := by
  simp [on_created, hf, hi, hw]

theorem on_created_locked (ctx : Ctx) (st : FileState)
    (hf : st.folder = Folder.watch) (hi : is_image_file st.path = true)
    (hw : wait_until_file_stable ctx.probe ctx.timeout = Except.ok true)
    (hm : st.lockMarker = true) :
    on_created ctx false st = Except.ok (Outcome.skippedLocked, st) := by
  simp [on_created, hf, hi, hw, hm, file_lock_acquire]

theorem on_created_run (ctx : Ctx) (st : FileState)
    (hf : st.folder = Folder.watch) (hi : is_image_file st.path = true)
    (hw : wait_until_file_stable ctx.probe ctx.timeout = Except.ok true)
    (hm : st.lockMarker = false) (hp : ctx.procRaises = false) :
    on_created ctx false st = Except.ok
      (Outcome.handled (process_file { st with lockMarker := true } ctx.returncode).1,
        { (process_file { st with lockMarker := true } ctx.returncode).2 with
            lockMarker := false }) := by
  simp [on_created, hf, hi, hw, hm, hp, file_lock_acquire, run_release_true]

theorem on_created_raises (ctx : Ctx) (st : FileState)
    (hf : st.folder = Folder.watch) (hi : is_image_file st.path = true)
    (hw : wait_until_file_stable ctx.probe ctx.timeout = Except.ok true)
    (hm : st.lockMarker = false) (hp : ctx.procRaises = true) :
    on_created ctx false st = Except.ok
      (Outcome.unexpectedError, { st with lockMarker := false }) := by
  simp [on_created, hf, hi, hw, hm, hp, file_lock_acquire, run_release_true]

theorem on_created_internal (ctx : Ctx) (st : FileState)
    (hf : st.folder ≠ Folder.watch) :
    on_created ctx false st = Except.ok (Outcome.ignoredInternal, st) := by
  simp [on_created, hf]

/-- Stability never confirms on a trace whose size differs on every
consecutive pair of the `timeout` samples. -/
theorem wait_distinct_false (probe : Nat → Except Unit Nat) (s : Nat → Nat) (t : Nat)
    (hok : ∀ i, i < t → probe i = Except.ok (s i))
    (hne : ∀ i, i + 1 < t → s (i + 1) ≠ s i) :
    wait_until_file_stable probe t = Except.ok false := by
  unfold wait_until_file_stable
  refine waitAux_distinct probe s t 0 (-1) ?_ ?_ ?_
  · intro j hj1 hj2; exact hok j (by omega)
  · intro j hj1 hj2; exact hne j (by omega)
  · intro ht0 hc; omega

/-! ### The claims -/

/-- Claim C1 (code-bug evidence): on a 4th extraction failure of
`x__retry3.jpg`, handled — as every event is — for a file sitting in the
watched root, the controller performs no renaming and no move: the file
stays in the watched root (`Folder.watch ≠ Folder.retry`), even though the
source prints that it "remains in Retry folder"; and the outcome is
terminal: a further failing run is again `stuck` with the state unchanged. -/
theorem C1_stuck_in_watch_root :
    on_created failCtx false ⟨Folder.watch, pathX3, false⟩ =
      Except.ok (Outcome.handled ProcOutcome.stuck,
        ⟨Folder.watch, pathX3, false⟩) ∧
    Folder.watch ≠ Folder.retry ∧
    process_file ⟨Folder.watch, pathX3, false⟩ 1 =
      (ProcOutcome.stuck, ⟨Folder.watch, pathX3, false⟩) := by
  exact ⟨by decide, by decide, by decide⟩

/-- Claim C2 (counterexample): with every probe raising (file removed
mid-probe), `wait_until_file_stable` does not keep sampling and return
false — it propagates the exception. -/
theorem C2_counterexample :
    wait_until_file_stable errProbe 10 = Except.error () ∧
    wait_until_file_stable errProbe 10 ≠ Except.ok false := by
  exact ⟨by decide, by decide⟩

/-- Claim C2 (amended): a read error while probing escapes as an
exception: if the first `k` samples succeed with no two consecutive equal
sizes and sample `k < timeout` raises, `wait_until_file_stable` returns
that error instead of false, and — the stability wait preceding the `try`
block of `on_created` — the exception escapes the handler as well. -/
theorem C2_amended_error_escapes (ctx : Ctx) (st : FileState) (s : Nat → Nat) (k : Nat)
    (hf : st.folder = Folder.watch) (hi : is_image_file st.path = true)
    (hk : k < ctx.timeout)
    (hok : ∀ j, j < k → ctx.probe j = Except.ok (s j))
    (hne : ∀ j, j + 1 < k → s (j + 1) ≠ s j)
    (herr : ctx.probe k = Except.error ()) :
    wait_until_file_stable ctx.probe ctx.timeout = Except.error () ∧
    on_created ctx false st = Except.error () := by
  have hw : wait_until_file_stable ctx.probe ctx.timeout = Except.error () := by
    unfold wait_until_file_stable
    refine waitAux_first_error ctx.probe s k ctx.timeout 0 (-1) hk ?_ ?_ ?_ ?_
    · intro j hj1 hj2; exact hok j (by omega)
    · intro j hj1 hj2; exact hne j (by omega)
    · intro hk0 hc; omega
    · rw [Nat.zero_add]; exact herr
  exact ⟨hw, on_created_error ctx st hf hi hw⟩

/-- Claim C2 (witness): the amended theorem applied to the everywhere-
failing probe at `k = 0`. -/
theorem C2_amended_witness :
    wait_until_file_stable errCtx.probe errCtx.timeout = Except.error () ∧
    on_created errCtx false ⟨Folder.watch, pathX, false⟩ = Except.error () := by
  exact C2_amended_error_escapes errCtx ⟨Folder.watch, pathX, false⟩ (fun _ => 0) 0
    rfl (by decide) (by decide)
    (fun j hj => absurd hj (by omega)) (fun j hj => absurd hj (by omega)) rfl

/-- Claim C3: an extraction failure with `retry_count < MAX_RETRIES`
renames the file to its next retry name and moves it into the retry
folder; concretely, three successive failures of the fresh `x.jpg`
(re-observed in the watched root after each move) produce `x__retry1.jpg`,
`x__retry2.jpg`, `x__retry3.jpg`, each moved into the retry folder. -/
theorem C3_retry_rename_and_move :
    (∀ (st : FileState) (rc : Int), rc ≠ 0 →
      get_retry_count st.path < MAX_RETRIES →
      process_file st rc = (ProcOutcome.retryScheduled,
        { st with folder := Folder.retry, path := increment_retry st.path })) ∧
    on_created failCtx false ⟨Folder.watch, pathX, false⟩ =
      Except.ok (Outcome.handled ProcOutcome.retryScheduled,
        ⟨Folder.retry, pathX1, false⟩) ∧
    on_created failCtx false ⟨Folder.watch, pathX1, false⟩ =
      Except.ok (Outcome.handled ProcOutcome.retryScheduled,
        ⟨Folder.retry, pathX2, false⟩) ∧
    on_created failCtx false ⟨Folder.watch, pathX2, false⟩ =
      Except.ok (Outcome.handled ProcOutcome.retryScheduled,
        ⟨Folder.retry, pathX3, false⟩) := by
  refine ⟨?_, by decide, by decide, by decide⟩
  intro st rc hrc hlt
  exact process_file_retry st rc hrc hlt

/-- Claim C3 (witness): the universally quantified conjunct applied to the
fresh `x.jpg` with failing exit status 1. -/
theorem C3_witness :
    (1 : Int) ≠ 0 ∧ get_retry_count pathX < MAX_RETRIES ∧
    process_file ⟨Folder.watch, pathX, false⟩ 1 =
      (ProcOutcome.retryScheduled, ⟨Folder.retry, pathX1, false⟩) := by
  refine ⟨by decide, by decide, ?_⟩
  have h := C3_retry_rename_and_move.1 ⟨Folder.watch, pathX, false⟩ 1 (by decide) (by decide)
  rw [h]
  decide

/-- Claim C4: for a fresh name (no retry marker in the stem), applying
`increment_retry` N times yields a name with `retry_count` exactly N while
the base stem (`stem.split("__retry")[0]`) and the extension stay
invariant; and the trajectory is determined from any point of the chain:
M further applications land at count N + M, so counts are strictly
increasing along the chain. -/
theorem C4_retry_ledger_iterate (p : PyPath) (hp : containsRetry p.stem = false)
    (N : Nat) :
    get_retry_count (increment_retry^[N] p) = (N : Int) ∧
    (splitRetry (increment_retry^[N] p).stem).headD [] = p.stem ∧
    (increment_retry^[N] p).suffix = p.suffix ∧
    (∀ M : Nat, get_retry_count (increment_retry^[M] (increment_retry^[N] p)) =
      ((N + M : Nat) : Int)) := by
  refine ⟨get_retry_iterate p hp N, ?_, ?_, ?_⟩
  · cases N with
    | zero => rw [Function.iterate_zero_apply, splitRetry_fresh p.stem hp]; rfl
    | succ N =>
      rw [increment_retry_iterate p hp N]
      rw [show (PyPath.mk (p.stem ++ RETRY_SEP ++ natToDigits (N + 1)) p.suffix).stem
          = p.stem ++ RETRY_SEP ++ natToDigits (N + 1) from rfl,
        splitRetry_chain p.stem (N + 1) hp]
      rfl
  · cases N with
    | zero => rw [Function.iterate_zero_apply]
    | succ N => rw [increment_retry_iterate p hp N]
  · intro M
    rw [← Function.iterate_add_apply, Nat.add_comm M N]
    exact get_retry_iterate p hp (N + M)

/-- Claim C4 (witness): the theorem applied to the fresh `x.jpg` at
`N = 3`, evaluated: the third iterate has retry count 3. -/
theorem C4_witness :
    containsRetry pathX.stem = false ∧
    get_retry_count (increment_retry^[3] pathX) = (3 : Int) := by
  exact ⟨by decide, (C4_retry_ledger_iterate pathX (by decide) 3).1⟩

/-- Claim C5: acquiring the lock while the marker file exists fails with
`AlreadyLocked`; the handler then skips the event without crashing (the
result is a normal `Except.ok` with the state untouched); and after a
release (which removes the marker) the same path locks again. -/
theorem C5_already_locked (ctx : Ctx) (st : FileState)
    (hf : st.folder = Folder.watch) (hi : is_image_file st.path = true)
    (hw : wait_until_file_stable ctx.probe ctx.timeout = Except.ok true)
    (hm : st.lockMarker = true) :
    file_lock_acquire st.lockMarker = Except.error LockErr.alreadyLocked ∧
    on_created ctx false st = Except.ok (Outcome.skippedLocked, st) ∧
    file_lock_release true = Except.ok false ∧
    file_lock_acquire false = Except.ok true := by
  refine ⟨?_, on_created_locked ctx st hf hi hw hm, rfl, rfl⟩
  rw [hm]
  rfl

/-- Claim C5 (witness): the theorem applied to a locked `x.jpg` under the
stable-probe environment. -/
theorem C5_witness :
    file_lock_acquire true = Except.error LockErr.alreadyLocked ∧
    on_created failCtx false ⟨Folder.watch, pathX, true⟩ =
      Except.ok (Outcome.skippedLocked, ⟨Folder.watch, pathX, true⟩) := by
  have h := C5_already_locked failCtx ⟨Folder.watch, pathX, true⟩ rfl
    (by decide) (by decide) rfl
  exact ⟨h.1, h.2.1⟩

/-- Claim C6: lock release is idempotent and never an error (deleting an
absent marker is guarded), and on every exit path out of the protected
region — success, extraction failure, or an unexpected exception raised
inside it — the handler finishes with the lock marker removed. -/
theorem C6_release_all_paths :
    (∀ m : Bool, file_lock_release m = Except.ok false) ∧
    (∀ (ctx : Ctx) (st : FileState),
      st.folder = Folder.watch → is_image_file st.path = true →
      wait_until_file_stable ctx.probe ctx.timeout = Except.ok true →
      st.lockMarker = false →
      ∀ (o : Outcome) (st2 : FileState),
        on_created ctx false st = Except.ok (o, st2) → st2.lockMarker = false) := by
  constructor
  · intro m; cases m <;> rfl
  · intro ctx st hf hi hw hm o st2 heq
    by_cases hp : ctx.procRaises = true
    · rw [on_created_raises ctx st hf hi hw hm hp] at heq
      have h2 : ({ st with lockMarker := false } : FileState) = st2 := by
        injection heq with h3
        exact congrArg Prod.snd h3
      rw [← h2]
    · have hp2 : ctx.procRaises = false := by simpa using hp
      rw [on_created_run ctx st hf hi hw hm hp2] at heq
      have h2 : ({ (process_file { st with lockMarker := true } ctx.returncode).2 with
          lockMarker := false } : FileState) = st2 := by
        injection heq with h3
        exact congrArg Prod.snd h3
      rw [← h2]

/-- Claim C6 (witness): the all-exit-paths conjunct applied to a
successful run on `x.jpg`: the final lock marker is absent. -/
theorem C6_witness :
    FileState.lockMarker ⟨Folder.processed, pathX, false⟩ = false := by
  exact C6_release_all_paths.2 okCtx ⟨Folder.watch, pathX, false⟩ rfl
    (by decide) (by decide) rfl
    (Outcome.handled ProcOutcome.processed) ⟨Folder.processed, pathX, false⟩ (by decide)

/-- Claim C7: a zero exit status moves the file into the processed folder
with its name unchanged, and the outcome is terminal: events for files
inside the processed folder are discarded with no state change. -/
theorem C7_success_processed :
    (∀ st : FileState, process_file st 0 =
      (ProcOutcome.processed, { st with folder := Folder.processed })) ∧
    (∀ (ctx : Ctx) (st : FileState), st.folder = Folder.processed →
      on_created ctx false st = Except.ok (Outcome.ignoredInternal, st)) := by
  constructor
  · exact process_file_success
  · intro ctx st hf
    exact on_created_internal ctx st (by rw [hf]; decide)

/-- Claim C7 (witness): the theorem applied to `x.jpg`: success moves it
to the processed folder unchanged, where further events ignore it. -/
theorem C7_witness :
    process_file ⟨Folder.watch, pathX, false⟩ 0 =
      (ProcOutcome.processed, ⟨Folder.processed, pathX, false⟩) ∧
    on_created okCtx false ⟨Folder.processed, pathX, false⟩ =
      Except.ok (Outcome.ignoredInternal, ⟨Folder.processed, pathX, false⟩) := by
  exact ⟨C7_success_processed.1 ⟨Folder.watch, pathX, false⟩,
    C7_success_processed.2 okCtx ⟨Folder.processed, pathX, false⟩ rfl⟩

/-- Claim C8 (counterexample): on the marker payload `-1` — which Python
`int()` accepts — `get_retry_count` returns the negative integer `-1`,
refuting the claimed non-negativity. -/
theorem C8_counterexample :
    get_retry_count ⟨("a__retry-1").toList, (".jpg").toList⟩ = -1 ∧
    ¬ (0 ≤ get_retry_count ⟨("a__retry-1").toList, (".jpg").toList⟩) := by
  exact ⟨by decide, by decide⟩

/-- Claim C8 (amended): `get_retry_count` never raises (it is total, the
`ValueError` branch degrading to 0) and returns the embedded integer —
which may be negative — whenever the marker payload parses as a Python
integer, and 0 when there is no marker or the payload is malformed. -/
theorem C8_amended_retry_count :
    (∀ p : PyPath, containsRetry p.stem = false → get_retry_count p = 0) ∧
    (∀ (base sfx : List Char) (n : Nat), containsRetry base = false →
      get_retry_count ⟨base ++ RETRY_SEP ++ natToDigits n, sfx⟩ = (n : Int)) ∧
    get_retry_count ⟨("a__retryxyz").toList, (".jpg").toList⟩ = 0 ∧
    get_retry_count ⟨("a__retry").toList, (".jpg").toList⟩ = 0 := by
  exact ⟨fun p hp => get_retry_fresh p hp,
    fun base sfx n hb => get_retry_chain base sfx n hb, by decide, by decide⟩

/-- Claim C8 (witness): the marker-payload conjunct applied to the fresh
base `a` with count 5. -/
theorem C8_witness :
    containsRetry (("a").toList) = false ∧
    get_retry_count ⟨("a").toList ++ RETRY_SEP ++ natToDigits 5, (".jpg").toList⟩ =
      (5 : Int) := by
  exact ⟨by decide,
    C8_amended_retry_count.2.1 (("a").toList) ((".jpg").toList) 5 (by decide)⟩

/-- Claim C9: `wait_until_file_stable` returns true as soon as two
consecutive size samples agree — for a file whose size never changes once
observed this happens within the allotted samples for any
`timeout ≥ 2` — while a trace whose size differs on all `timeout`
consecutive samples yields false, in which case the handler skips the
event with the state untouched: the file is never locked and never
moved. -/
theorem C9_stability_confirmation :
    (∀ (probe : Nat → Except Unit Nat) (sz t : Nat),
      (∀ i, probe i = Except.ok sz) → 2 ≤ t →
      wait_until_file_stable probe t = Except.ok true) ∧
    (∀ (probe : Nat → Except Unit Nat) (s : Nat → Nat) (t : Nat),
      (∀ i, i < t → probe i = Except.ok (s i)) →
      (∀ i, i + 1 < t → s (i + 1) ≠ s i) →
      wait_until_file_stable probe t = Except.ok false) ∧
    (∀ (ctx : Ctx) (st : FileState) (s : Nat → Nat),
      st.folder = Folder.watch → is_image_file st.path = true →
      (∀ i, i < ctx.timeout → ctx.probe i = Except.ok (s i)) →
      (∀ i, i + 1 < ctx.timeout → s (i + 1) ≠ s i) →
      on_created ctx false st = Except.ok (Outcome.skippedUnstable, st)) := by
  refine ⟨?_, ?_, ?_⟩
  · intro probe sz t hp ht
    exact waitAux_stable_second probe sz t (hp 0) (hp 1) ht
  · intro probe s t hok hne
    exact wait_distinct_false probe s t hok hne
  · intro ctx st s hf hi hok hne
    exact on_created_unstable ctx st hf hi (wait_distinct_false ctx.probe s ctx.timeout hok hne)

/-- Claim C9 (witness): the three conjuncts applied to the constant-size
probe, the strictly growing probe, and the growing-probe environment. -/
theorem C9_witness :
    wait_until_file_stable stableProbe 2 = Except.ok true ∧
    wait_until_file_stable growProbe 10 = Except.ok false ∧
    on_created growCtx false ⟨Folder.watch, pathX, false⟩ =
      Except.ok (Outcome.skippedUnstable, ⟨Folder.watch, pathX, false⟩) := by
  refine ⟨C9_stability_confirmation.1 stableProbe 5 2 (fun i => rfl) (by omega),
    C9_stability_confirmation.2.1 growProbe (fun i => i) 10
      (fun i hi => rfl) (fun i hi => by simp),
    C9_stability_confirmation.2.2 growCtx ⟨Folder.watch, pathX, false⟩ (fun i => i)
      rfl (by decide) (fun i hi => rfl) (fun i hi => by simp)⟩

/-- Claim C10: stability can only be confirmed from the second sample
onwards: with `timeout ≤ 1` the prober returns false for every
successfully probed file, a file of unchanging size is confirmed on
exactly the second sample (true for every `timeout ≥ 2`, regardless of
later samples), and the `-1` sentinel can never equal a real size. -/
theorem C10_second_sample :
    (∀ (probe : Nat → Except Unit Nat) (sz t : Nat),
      probe 0 = Except.ok sz → t ≤ 1 →
      wait_until_file_stable probe t = Except.ok false) ∧
    (∀ (probe : Nat → Except Unit Nat) (sz t : Nat),
      probe 0 = Except.ok sz → probe 1 = Except.ok sz → 2 ≤ t →
      wait_until_file_stable probe t = Except.ok true) ∧
    (∀ sz : Nat, ((sz : Int) = -1) →
      wait_until_file_stable stableProbe 0 = Except.ok true) := by
  refine ⟨?_, ?_, ?_⟩
  · intro probe sz t h0 ht
    unfold wait_until_file_stable
    refine waitAux_distinct probe (fun _ => sz) t 0 (-1) ?_ ?_ ?_
    · intro j hj1 hj2
      have hj0 : j = 0 := by omega
      rw [hj0]
      exact h0
    · intro j hj1 hj2
      omega
    · intro ht0 hc
      omega
  · intro probe sz t h0 h1 ht
    exact waitAux_stable_second probe sz t h0 h1 ht
  · intro sz h
    omega

/-- Claim C10 (witness): under the constant probe, one sample is not
enough and two are: false at `timeout = 1`, true at `timeout = 2`. -/
theorem C10_witness :
    wait_until_file_stable stableProbe 1 = Except.ok false ∧
    wait_until_file_stable stableProbe 2 = Except.ok true := by
  exact ⟨C10_second_sample.1 stableProbe 5 1 rfl (by omega),
    C10_second_sample.2.1 stableProbe 5 2 rfl rfl (by omega)⟩

end LabelWatchdog
